import Mathlib

/-
Shallow embedding of the final `MyLinearModel` class of
`exercise_codeyourownlinearregression.ipynb` (the version with the
`fit_intercept` constructor flag, augmentation via
`statsmodels.api.add_constant`, and `predict`).

Modelling conventions:
  * numpy arrays are lists of exact rationals (row-major lists of rows);
  * `np.linalg.inv` raises `LinAlgError` exactly when the determinant is
    zero; the model returns `Option` and `fit` propagates the failure as
    `Except.error`;
  * the float division `rss / (n - p)` is non-finite exactly when
    `n = p` (the `n < p` case never reaches it, since then the Gram
    matrix is singular and inversion has already failed); `none` in
    `Option ℚ` / `Option ℝ` models an IEEE NaN/inf result;
  * `np.sqrt` of a nonnegative value is `Real.sqrt`, of a negative value
    it is NaN (`none`);
  * methods are embedded state-passing style: they take the object state
    and return the (possibly updated) state together with the result or
    the raised error.
-/

namespace LinReg

abbrev Vec := List ℚ

abbrev Mat := List (List ℚ)

/-- Number of rows (`X.shape[0]`). -/
def Mat.rows (A : Mat) : ℕ := A.length

/-- Number of columns (`X.shape[1]`), read off the first row. -/
def Mat.cols : Mat → ℕ
  | [] => 0
  | r :: _ => r.length

/-- Entry of a row vector, defaulting to 0 out of range. -/
def getEntry (r : Vec) (j : ℕ) : ℚ := r.getD j 0

/-- Matrix transpose (`X.T`). -/
def transpose (A : Mat) : Mat :=
  (List.range A.cols).map (fun j => A.map (fun r => getEntry r j))

/-- Dot product of two vectors. -/
def dot (u v : Vec) : ℚ := (List.zipWith (fun a b => a * b) u v).sum

/-- Matrix-vector product (`A @ v`). -/
def matVec (A : Mat) (v : Vec) : Vec := A.map (fun r => dot r v)

/-- Matrix-matrix product (`A @ B`). -/
def matMul (A B : Mat) : Mat :=
  A.map (fun r => (transpose B).map (fun c => dot r c))

/-- Determinant by Laplace expansion along the first row; the fuel is
always instantiated with the number of rows, and each minor has exactly
one row fewer, so the fuel never runs out. -/
def detAux : ℕ → Mat → ℚ
  | _, [] => 1
  | 0, _ :: _ => 0
  | fuel + 1, r :: rest =>
    ((List.range r.length).map (fun j =>
      (-1 : ℚ) ^ j * getEntry r j *
        detAux fuel (rest.map (fun s => s.eraseIdx j)))).sum

/-- Determinant of a square matrix. -/
def det (A : Mat) : ℚ := detAux A.length A

/-- Minor: delete row `i` and column `j`. -/
def minorMat (A : Mat) (i j : ℕ) : Mat :=
  (A.eraseIdx i).map (fun r => r.eraseIdx j)

/-- Cofactor of entry `(i, j)`. -/
def cofactor (A : Mat) (i j : ℕ) : ℚ :=
  (-1 : ℚ) ^ (i + j) * det (minorMat A i j)

/-- Model of `np.linalg.inv`: `none` models the raised `LinAlgError` on
a singular matrix, otherwise the inverse via the adjugate formula. -/
def inverse (A : Mat) : Option Mat :=
  if det A = 0 then none
  else some ((List.range A.rows).map (fun i =>
    (List.range A.rows).map (fun j => cofactor A j i / det A)))

/-- Model of `y.mean()`. -/
def mean (v : Vec) : ℚ := v.sum / (v.length : ℚ)

/-- Model of `np.sum((y - y.mean()) ** 2)`. -/
def totalVariance (y : Vec) : ℚ :=
  (y.map (fun yi => (yi - mean y) ^ 2)).sum

/-- Model of `np.sum(residuals ** 2)` for `residuals = y - y_pred`. -/
def residualSS (y y_pred : Vec) : ℚ :=
  ((List.zipWith (fun a b => a - b) y y_pred).map (fun e => e ^ 2)).sum

/-- The statsmodels `add_constant` skip test on one column: the column
is constant (`np.ptp(x, axis=0) == 0`) and all its entries are nonzero
(`np.all(x != 0, axis=0)`). -/
def constCol (A : Mat) (j : ℕ) : Bool :=
  match A with
  | [] => false
  | r :: rest =>
    decide (getEntry r j ≠ 0) &&
      rest.all (fun s => decide (getEntry s j = getEntry r j))

/-- Whether some column passes the statsmodels skip test. -/
def hasNonzeroConstCol (A : Mat) : Bool :=
  (List.range A.cols).any (fun j => constCol A j)

/-- Model of `statsmodels.api.add_constant(X)` with its defaults
(`prepend=True`, `has_constant="skip"`): if some column is a nonzero
constant the input is returned unchanged, otherwise a column of ones is
prepended. -/
def add_constant (A : Mat) : Mat :=
  if hasNonzeroConstCol A then A else A.map (fun r => (1 : ℚ) :: r)

/-- The augmentation step shared by `fit` and `predict`:
`if self.fit_intercept: X = sm.add_constant(X)`. -/
def augmentIf (b : Bool) (X : Mat) : Mat :=
  if b then add_constant X else X

/-- Model of `error_variance = np.sum(residuals**2) / (X.shape[0] - X.shape[1])`:
the float division is non-finite (inf or NaN, modelled `none`) exactly
when the integer denominator is zero. -/
def errorVariance (rss : ℚ) (n p : ℕ) : Option ℚ :=
  if n = p then none else some (rss / ((n : ℚ) - (p : ℚ)))

/-- Diagonal entry `A[j][j]` (`np.diag`). -/
def diagEntry (A : Mat) (j : ℕ) : ℚ := getEntry (A.getD j []) j

/-- One entry of `np.sqrt(np.diag(var_cov_matrix))` where
`var_cov_matrix = error_variance * inv(X'X)`: NaN (`none`) if the error
variance is already non-finite or the diagonal entry of the covariance
matrix is negative, otherwise the real square root. -/
noncomputable def stdErrEntry (ev : Option ℚ) (d : ℚ) : Option ℝ :=
  match ev with
  | none => none
  | some v => if v * d < 0 then none else some (Real.sqrt ((v * d : ℚ) : ℝ))

/-- Model of `self.std_errors = np.sqrt(np.diag(var_cov_matrix))`. -/
noncomputable def stdErrors (ev : Option ℚ) (XtXinv : Mat) : List (Option ℝ) :=
  (List.range XtXinv.rows).map (fun j => stdErrEntry ev (diagEntry XtXinv j))

/-- Model of `self.r_squared = 1 - (np.sum(residuals**2) / total_variance)`:
non-finite (`none`) when the total variance is zero. -/
def rSquaredCalc (y y_pred : Vec) : Option ℚ :=
  if totalVariance y = 0 then none
  else some (1 - residualSS y y_pred / totalVariance y)

/-- Errors raised inside `fit` / `predict`. -/
inductive FitError where
  | singularMatrix : FitError
  | notFitted : FitError
deriving DecidableEq

/-- Instance state of the Python class `MyLinearModel`: the configuration
flag and the three derived attributes, each `None` until set. The inner
`Option` of an `std_errors` entry and of `r_squared` records a non-finite
(NaN/inf) float. -/
structure MyLinearModel where
  fit_intercept : Bool
  coefficients : Option Vec
  std_errors : Option (List (Option ℝ))
  r_squared : Option (Option ℚ)

/-- Model of `MyLinearModel.__init__(fit_intercept=...)`: the three
derived attributes start as `None`. -/
def init (fi : Bool) : MyLinearModel :=
  { fit_intercept := fi, coefficients := none, std_errors := none,
    r_squared := none }

/-- The local `self.coefficients = np.linalg.inv(X_transpose @ X) @ X_transpose @ y`
once the inverse `I` is available: `(I @ Xa.T) @ y` (numpy `@` is
left-associative). -/
def coefficientsCalc (I Xa : Mat) (y : Vec) : Vec :=
  matVec (matMul I (transpose Xa)) y

/-- The local `y_pred = X @ self.coefficients`. -/
def yPredCalc (I Xa : Mat) (y : Vec) : Vec :=
  matVec Xa (coefficientsCalc I Xa y)

/-- The local `error_variance = np.sum(residuals**2) / (X.shape[0] - X.shape[1])`. -/
def evCalc (I Xa : Mat) (y : Vec) : Option ℚ :=
  errorVariance (residualSS y (yPredCalc I Xa y)) Xa.rows Xa.cols

/-- Model of `MyLinearModel.fit(X, y)`, state-passing: the first
component is the object state after the call (unchanged if an exception
propagates), the second the returned `y_pred` or the raised error. The
only raise point is `np.linalg.inv` on a singular Gram matrix, which
happens before any attribute assignment; every later step is total float
arithmetic (divisions and square roots yield non-finite values, never
exceptions), so either all three attributes are overwritten and `y_pred`
is returned, or the error propagates with the state untouched. -/
noncomputable def fit (m : MyLinearModel) (X : Mat) (y : Vec) :
    MyLinearModel × Except FitError Vec :=
  match inverse (matMul (transpose (augmentIf m.fit_intercept X))
      (augmentIf m.fit_intercept X)) with
  | none => (m, Except.error FitError.singularMatrix)
  | some XtXinv =>
    ({ fit_intercept := m.fit_intercept,
       coefficients := some (coefficientsCalc XtXinv (augmentIf m.fit_intercept X) y),
       std_errors := some (stdErrors (evCalc XtXinv (augmentIf m.fit_intercept X) y) XtXinv),
       r_squared := some (rSquaredCalc y (yPredCalc XtXinv (augmentIf m.fit_intercept X) y)) },
     Except.ok (yPredCalc XtXinv (augmentIf m.fit_intercept X) y))

/-- Model of `MyLinearModel.predict(X_test)`, state-passing: the method
assigns no attribute, so the state is returned unchanged; `X_test @ None`
when the model holds no fitted coefficients raises (modelled
`notFitted`). -/
def predict (m : MyLinearModel) (X_test : Mat) :
    MyLinearModel × Except FitError Vec :=
  match m.coefficients with
  | none => (m, Except.error FitError.notFitted)
  | some beta => (m, Except.ok (matVec (augmentIf m.fit_intercept X_test) beta))

/-! Supporting lemmas shared by the claim theorems. -/

theorem inverse_rows {A I : Mat} (h : inverse A = some I) :
    I.length = A.length := by
  unfold inverse at h
  split at h
  · exact absurd h (by simp)
  · injection h with h
    subst h
    simp [Mat.rows]

theorem matVec_length (A : Mat) (v : Vec) : (matVec A v).length = A.length := by
  simp [matVec]

theorem matMul_length (A B : Mat) : (matMul A B).length = A.length := by
  simp [matMul]

theorem transpose_length (A : Mat) : (transpose A).length = Mat.cols A := by
  simp [transpose]

theorem coefficientsCalc_length (I Xa : Mat) (y : Vec) :
    (coefficientsCalc I Xa y).length = I.length := by
  simp [coefficientsCalc, matVec_length, matMul_length]

theorem stdErrors_length (ev : Option ℚ) (I : Mat) :
    (stdErrors ev I).length = I.length := by
  simp [stdErrors, Mat.rows]

theorem fit_eq_error {m : MyLinearModel} {X : Mat} {y : Vec}
    (h : inverse (matMul (transpose (augmentIf m.fit_intercept X))
      (augmentIf m.fit_intercept X)) = none) :
    fit m X y = (m, Except.error FitError.singularMatrix) := by
  unfold fit
  rw [h]

theorem fit_eq_ok {m : MyLinearModel} {X : Mat} {y : Vec} {I : Mat}
    (h : inverse (matMul (transpose (augmentIf m.fit_intercept X))
      (augmentIf m.fit_intercept X)) = some I) :
    fit m X y =
      ({ fit_intercept := m.fit_intercept,
         coefficients := some (coefficientsCalc I (augmentIf m.fit_intercept X) y),
         std_errors := some (stdErrors (evCalc I (augmentIf m.fit_intercept X) y) I),
         r_squared := some (rSquaredCalc y (yPredCalc I (augmentIf m.fit_intercept X) y)) },
       Except.ok (yPredCalc I (augmentIf m.fit_intercept X) y)) := by
  unfold fit
  rw [h]

theorem totalVariance_replicate {n : ℕ} {c : ℚ} (hn : 0 < n) :
    totalVariance (List.replicate n c) = 0 := by
  have hm : mean (List.replicate n c) = c := by
    have hne : ((n : ℚ)) ≠ 0 := by exact_mod_cast hn.ne'
    simp [mean, List.sum_replicate, nsmul_eq_mul]
    field_simp
  simp [totalVariance, hm, List.map_replicate, List.sum_replicate]

/-! Claim theorems. -/

/-- C1: whenever the Gram matrix of the augmented design matrix Xa is
invertible (with inverse I, i.e. fit accepts X and y), fit stores as the
`coefficients` attribute the normal-equation solution
(Xa.T @ Xa)⁻¹ @ Xa.T @ y and returns the fitted values
Xa @ coefficients. -/
theorem fit_solves_normal_equations (m : MyLinearModel) (X : Mat) (y : Vec)
    (I : Mat)
    (hI : inverse (matMul (transpose (augmentIf m.fit_intercept X))
      (augmentIf m.fit_intercept X)) = some I) :
    (fit m X y).1.coefficients =
      some (matVec (matMul I (transpose (augmentIf m.fit_intercept X))) y) ∧
    (fit m X y).2 =
      Except.ok (matVec (augmentIf m.fit_intercept X)
        (matVec (matMul I (transpose (augmentIf m.fit_intercept X))) y)) := by
  rw [fit_eq_ok hI]
  exact ⟨rfl, rfl⟩

/-- C1 witness: a concrete accepted fit call, with the Gram inverse
supplied explicitly. -/
theorem fit_solves_normal_equations_witness :
    (fit (init false) [[2],[0]] [3,4]).1.coefficients =
      some (matVec (matMul [[(1 : ℚ)/4]]
        (transpose (augmentIf (init false).fit_intercept [[2],[0]]))) [3,4]) ∧
    (fit (init false) [[2],[0]] [3,4]).2 =
      Except.ok (matVec (augmentIf (init false).fit_intercept [[2],[0]])
        (matVec (matMul [[(1 : ℚ)/4]]
          (transpose (augmentIf (init false).fit_intercept [[2],[0]]))) [3,4])) :=
  fit_solves_normal_equations (init false) [[2],[0]] [3,4] [[(1 : ℚ)/4]] (by
    norm_num [inverse, det, detAux, minorMat, cofactor, getEntry, Mat.rows,
      Mat.cols, augmentIf, init, transpose, matMul, matVec, dot,
      List.range_succ])

/-- C6: a fit call that fails (the Gram matrix of the augmented design
is singular, e.g. duplicate columns) leaves the instance state
completely untouched, while a successful fit refreshes all three derived
attributes as a unit, never partially. -/
theorem fit_atomic_updates (m : MyLinearModel) (X : Mat) (y : Vec) :
    (∀ e, (fit m X y).2 = Except.error e → (fit m X y).1 = m) ∧
    (∀ m2 yhat, fit m X y = (m2, Except.ok yhat) →
      m2.coefficients.isSome = true ∧ m2.std_errors.isSome = true ∧
      m2.r_squared.isSome = true ∧ m2.fit_intercept = m.fit_intercept) := by
  cases hinv : inverse (matMul (transpose (augmentIf m.fit_intercept X))
      (augmentIf m.fit_intercept X)) with
  | none =>
    rw [fit_eq_error hinv]
    refine ⟨fun e h => rfl, fun m2 yhat h => ?_⟩
    exact absurd (congrArg Prod.snd h) (by simp)
  | some I =>
    rw [fit_eq_ok hinv]
    refine ⟨fun e h => absurd h (by simp), fun m2 yhat h => ?_⟩
    injection h with h1 h2
    subst h1
    exact ⟨rfl, rfl, rfl, rfl⟩

/-- C6 witness: a fit call on a design with duplicate columns (plus the
added intercept column) fails with the singular-matrix error and leaves
the freshly initialized state unchanged. -/
theorem fit_atomic_updates_witness :
    (fit (init true) [[1,1],[2,2]] [1,2]).1 = init true :=
  (fit_atomic_updates (init true) [[1,1],[2,2]] [1,2]).1
    FitError.singularMatrix (by
      norm_num [fit, init, augmentIf, add_constant, hasNonzeroConstCol,
        constCol, getEntry, Mat.cols, Mat.rows, List.range_succ, inverse,
        det, detAux, minorMat, cofactor, transpose, matMul, matVec, dot])

/-- C7: calling predict with the same X immediately after a successful
fit returns exactly the fitted values that fit returned. -/
theorem predict_consistency (m m2 : MyLinearModel) (X : Mat) (y yhat : Vec)
    (h1 : (fit m X y).1 = m2) (h2 : (fit m X y).2 = Except.ok yhat) :
    predict m2 X = (m2, Except.ok yhat) := by
  cases hinv : inverse (matMul (transpose (augmentIf m.fit_intercept X))
      (augmentIf m.fit_intercept X)) with
  | none =>
    rw [fit_eq_error hinv] at h2
    exact absurd h2 (by simp)
  | some I =>
    rw [fit_eq_ok hinv] at h1 h2
    injection h2 with h2
    subst h1
    subst h2
    rfl

/-- C7 witness: a concrete fit followed by predict on the same design
matrix. -/
theorem predict_consistency_witness :
    predict ((fit (init false) [[2],[0]] [3,4]).1) [[2],[0]] =
      ((fit (init false) [[2],[0]] [3,4]).1, Except.ok [3,0]) :=
  predict_consistency (init false) ((fit (init false) [[2],[0]] [3,4]).1)
    [[2],[0]] [3,4] [3,0] rfl (by
      norm_num [fit, init, augmentIf, add_constant, hasNonzeroConstCol,
        constCol, getEntry, Mat.cols, Mat.rows, List.range_succ, inverse,
        det, detAux, minorMat, cofactor, transpose, matMul, matVec, dot,
        coefficientsCalc, yPredCalc])

/-- C8: on an estimator whose coefficients were never set by a
successful fit (in particular a freshly constructed one), predict raises
instead of returning a value; the raise comes exactly from the
coefficients being undefined. -/
theorem predict_before_fit (m : MyLinearModel) (X : Mat)
    (h : m.coefficients = none) :
    (predict m X).2 = Except.error FitError.notFitted := by
  unfold predict
  rw [h]

/-- C8 witness: predict on a freshly constructed estimator. -/
theorem predict_before_fit_witness :
    (predict (init true) [[1],[2]]).2 = Except.error FitError.notFitted :=
  predict_before_fit (init true) [[1],[2]] rfl

/-- C9: the methods are pure over their array inputs (the embedding is
state-passing over immutable values; augmentation builds a new list);
predict returns the estimator state unchanged for every state and input,
and fit never touches the configuration flag, so only the three derived
attributes can change. -/
theorem predict_reads_only (m : MyLinearModel) (X_test X : Mat) (y : Vec) :
    (predict m X_test).1 = m ∧
    (fit m X y).1.fit_intercept = m.fit_intercept := by
  constructor
  · unfold predict
    cases hc : m.coefficients <;> rfl
  · cases hinv : inverse (matMul (transpose (augmentIf m.fit_intercept X))
        (augmentIf m.fit_intercept X)) with
    | none => rw [fit_eq_error hinv]
    | some I => rw [fit_eq_ok hinv]

/-- C2 counterexample: with fit_intercept true and the one-column design
X = [[2],[2],[2]] (a nonzero constant column), add_constant skips the
ones column, so the augmented matrix has 1 column, not k+1 = 2, and the
fitted coefficient vector is [1], of length 1. -/
theorem fit_augmentation_cx :
    Mat.cols (augmentIf (init true).fit_intercept [[2],[2],[2]]) ≠ 2 ∧
    (fit (init true) [[2],[2],[2]] [1,2,3]).1.coefficients = some [1] := by
  constructor
  · norm_num [augmentIf, init, add_constant, hasNonzeroConstCol, constCol,
      getEntry, Mat.cols, List.range_succ]
  · norm_num [fit, init, augmentIf, add_constant, hasNonzeroConstCol,
      constCol, getEntry, Mat.cols, Mat.rows, List.range_succ, inverse, det,
      detAux, minorMat, cofactor, transpose, matMul, matVec, dot,
      coefficientsCalc, yPredCalc]

/-- C2 (amended): provided X is nonempty and contains no nonzero
constant column (the statsmodels skip rule does not fire), fit_intercept
true makes fit prepend a column of ones, giving k+1 augmented columns
and a coefficient vector of length k+1 whose index 0 multiplies the ones
column; with fit_intercept false the unaugmented X (k columns) is used.
If X already contains a nonzero constant column, add_constant returns X
unchanged, so the k+1 part of the original claim fails there. -/
theorem fit_augmentation (m : MyLinearModel) (X : Mat) (y : Vec) (I : Mat)
    (hc : hasNonzeroConstCol X = false)
    (hX : X ≠ [])
    (hI : inverse (matMul (transpose (augmentIf m.fit_intercept X))
      (augmentIf m.fit_intercept X)) = some I) :
    (m.fit_intercept = true →
      augmentIf m.fit_intercept X = X.map (fun r => (1 : ℚ) :: r) ∧
      Mat.cols (augmentIf m.fit_intercept X) = Mat.cols X + 1 ∧
      (fit m X y).1.coefficients =
        some (coefficientsCalc I (augmentIf m.fit_intercept X) y) ∧
      (coefficientsCalc I (augmentIf m.fit_intercept X) y).length =
        Mat.cols X + 1) ∧
    (m.fit_intercept = false → augmentIf m.fit_intercept X = X) := by
  constructor
  · intro hf
    have haug : augmentIf m.fit_intercept X = X.map (fun r => (1 : ℚ) :: r) := by
      simp [augmentIf, hf, add_constant, hc]
    have hcols : Mat.cols (augmentIf m.fit_intercept X) = Mat.cols X + 1 := by
      rw [haug]
      cases X with
      | nil => exact absurd rfl hX
      | cons r rest => simp [Mat.cols]
    refine ⟨haug, hcols, ?_, ?_⟩
    · rw [fit_eq_ok hI]
    · rw [coefficientsCalc_length, inverse_rows hI, matMul_length,
        transpose_length, hcols]
  · intro hf
    simp [augmentIf, hf]

/-- C2 witness: a concrete nonempty design without a nonzero constant
column, fitted with intercept. -/
theorem fit_augmentation_witness :
    augmentIf (init true).fit_intercept [[0],[3]] =
      ([[0],[3]] : Mat).map (fun r => (1 : ℚ) :: r) ∧
    Mat.cols (augmentIf (init true).fit_intercept [[0],[3]]) =
      Mat.cols ([[0],[3]] : Mat) + 1 ∧
    (fit (init true) [[0],[3]] [1,2]).1.coefficients =
      some (coefficientsCalc [[1,-1/3],[-1/3,2/9]]
        (augmentIf (init true).fit_intercept [[0],[3]]) [1,2]) ∧
    (coefficientsCalc [[1,-1/3],[-1/3,2/9]]
      (augmentIf (init true).fit_intercept [[0],[3]]) [1,2]).length =
      Mat.cols ([[0],[3]] : Mat) + 1 :=
  (fit_augmentation (init true) [[0],[3]] [1,2] [[1,-1/3],[-1/3,2/9]]
    (by norm_num [hasNonzeroConstCol, constCol, getEntry, Mat.cols,
      List.range_succ])
    (by simp)
    (by norm_num [inverse, det, detAux, minorMat, cofactor, getEntry,
      Mat.rows, Mat.cols, augmentIf, init, add_constant, hasNonzeroConstCol,
      constCol, transpose, matMul, matVec, dot, List.range_succ])).1 rfl

/-- C3: on an accepted fit, std_errors is set to the element-wise square
root of the diagonal of error_variance times the inverse Gram matrix,
with error_variance = Σe²/(n − p) (a non-finite float entry is modelled
as none); its length equals the coefficient vector's; and whenever
n ≠ p and the product σ²·d is nonnegative, an entry is literally the
real square root of σ² times the corresponding diagonal entry d of the
inverse Gram matrix. -/
theorem fit_std_errors_def (m : MyLinearModel) (X : Mat) (y : Vec) (I : Mat)
    (hI : inverse (matMul (transpose (augmentIf m.fit_intercept X))
      (augmentIf m.fit_intercept X)) = some I) :
    (fit m X y).1.std_errors =
      some ((List.range I.length).map (fun j =>
        stdErrEntry
          (errorVariance
            (residualSS y (yPredCalc I (augmentIf m.fit_intercept X) y))
            (augmentIf m.fit_intercept X).rows
            (augmentIf m.fit_intercept X).cols)
          (diagEntry I j))) ∧
    (stdErrors (evCalc I (augmentIf m.fit_intercept X) y) I).length =
      (coefficientsCalc I (augmentIf m.fit_intercept X) y).length ∧
    (∀ (rss : ℚ) (n p : ℕ) (d : ℚ), n ≠ p → 0 ≤ rss / ((n : ℚ) - (p : ℚ)) * d →
      stdErrEntry (errorVariance rss n p) d =
        some (Real.sqrt ((rss / ((n : ℚ) - (p : ℚ)) * d : ℚ) : ℝ))) := by
  refine ⟨?_, ?_, ?_⟩
  · rw [fit_eq_ok hI]
    rfl
  · rw [stdErrors_length, coefficientsCalc_length]
  · intro rss n p d hnp hge
    rw [errorVariance, if_neg hnp]
    rw [stdErrEntry, if_neg (not_lt.mpr hge)]

/-- C3 witness: a concrete accepted fit with n = 2 samples and p = 1
augmented column, plus a concrete defined entry of the square-root
formula. -/
theorem fit_std_errors_def_witness :
    (fit (init false) [[2],[0]] [3,4]).1.std_errors =
      some ((List.range (([[(1:ℚ)/4]] : Mat)).length).map (fun j =>
        stdErrEntry
          (errorVariance
            (residualSS [3,4]
              (yPredCalc [[(1:ℚ)/4]]
                (augmentIf (init false).fit_intercept [[2],[0]]) [3,4]))
            (augmentIf (init false).fit_intercept [[2],[0]]).rows
            (augmentIf (init false).fit_intercept [[2],[0]]).cols)
          (diagEntry [[(1:ℚ)/4]] j))) ∧
    stdErrEntry (errorVariance 8 2 1) (1/4) =
      some (Real.sqrt ((8 / ((2 : ℚ) - (1 : ℚ)) * (1/4) : ℚ) : ℝ)) :=
  ⟨(fit_std_errors_def (init false) [[2],[0]] [3,4] [[(1:ℚ)/4]] (by
      norm_num [inverse, det, detAux, minorMat, cofactor, getEntry,
        Mat.rows, Mat.cols, augmentIf, init, transpose, matMul, matVec,
        dot, List.range_succ])).1,
   (fit_std_errors_def (init false) [[2],[0]] [3,4] [[(1:ℚ)/4]] (by
      norm_num [inverse, det, detAux, minorMat, cofactor, getEntry,
        Mat.rows, Mat.cols, augmentIf, init, transpose, matMul, matVec,
        dot, List.range_succ])).2.2 8 2 1 (1/4) (by norm_num) (by norm_num)⟩

/-- C4: on an accepted fit the r_squared attribute is computed as
1 − Σe²/Σ(y − mean y)² when the total variance is nonzero; and for a
constant response vector fit still completes, setting coefficients and
standard errors, with r_squared stored as the non-finite marker rather
than raising. -/
theorem fit_r_squared_def (m : MyLinearModel) (X : Mat) (y : Vec) (I : Mat)
    (n : ℕ) (c : ℚ)
    (hI : inverse (matMul (transpose (augmentIf m.fit_intercept X))
      (augmentIf m.fit_intercept X)) = some I) :
    ((fit m X y).1.r_squared =
        some (rSquaredCalc y (yPredCalc I (augmentIf m.fit_intercept X) y)) ∧
      (totalVariance y ≠ 0 →
        rSquaredCalc y (yPredCalc I (augmentIf m.fit_intercept X) y) =
          some (1 -
            residualSS y (yPredCalc I (augmentIf m.fit_intercept X) y) /
              totalVariance y))) ∧
    (0 < n → y = List.replicate n c →
      (fit m X y).2 =
        Except.ok (yPredCalc I (augmentIf m.fit_intercept X) y) ∧
      (fit m X y).1.r_squared = some none ∧
      (fit m X y).1.coefficients.isSome = true ∧
      (fit m X y).1.std_errors.isSome = true) := by
  refine ⟨⟨?_, ?_⟩, ?_⟩
  · rw [fit_eq_ok hI]
  · intro h
    simp [rSquaredCalc, h]
  · intro hn hy
    subst hy
    rw [fit_eq_ok hI]
    refine ⟨rfl, ?_, rfl, rfl⟩
    simp [rSquaredCalc, totalVariance_replicate hn]

/-- C4 witness: one accepted fit with nonconstant y, and one accepted
fit with the constant response [5,5]. -/
theorem fit_r_squared_def_witness :
    (fit (init false) [[2],[0]] [3,4]).1.r_squared =
      some (rSquaredCalc [3,4]
        (yPredCalc [[(1:ℚ)/4]]
          (augmentIf (init false).fit_intercept [[2],[0]]) [3,4])) ∧
    ((fit (init false) [[2],[0]] [5,5]).2 =
        Except.ok (yPredCalc [[(1:ℚ)/4]]
          (augmentIf (init false).fit_intercept [[2],[0]]) [5,5]) ∧
      (fit (init false) [[2],[0]] [5,5]).1.r_squared = some none ∧
      (fit (init false) [[2],[0]] [5,5]).1.coefficients.isSome = true ∧
      (fit (init false) [[2],[0]] [5,5]).1.std_errors.isSome = true) :=
  ⟨(fit_r_squared_def (init false) [[2],[0]] [3,4] [[(1:ℚ)/4]] 2 0 (by
      norm_num [inverse, det, detAux, minorMat, cofactor, getEntry,
        Mat.rows, Mat.cols, augmentIf, init, transpose, matMul, matVec,
        dot, List.range_succ])).1.1,
   (fit_r_squared_def (init false) [[2],[0]] [5,5] [[(1:ℚ)/4]] 2 5 (by
      norm_num [inverse, det, detAux, minorMat, cofactor, getEntry,
        Mat.rows, Mat.cols, augmentIf, init, transpose, matMul, matVec,
        dot, List.range_succ])).2 (by norm_num) rfl⟩

/-- C5 counterexample: at X = [[0],[3]] with intercept, n = 2 equals the
number p = 2 of augmented columns and the Gram matrix is invertible, yet
fit does not raise: it completes, returns fitted values, and stores
standard errors whose entries are all the non-finite marker. -/
theorem fit_insufficient_dof_cx :
    (fit (init true) [[0],[3]] [1,2]).2 = Except.ok [1,2] ∧
    (fit (init true) [[0],[3]] [1,2]).1.std_errors = some [none, none] := by
  constructor
  · norm_num [fit, init, augmentIf, add_constant, hasNonzeroConstCol,
      constCol, getEntry, Mat.cols, Mat.rows, List.range_succ, inverse, det,
      detAux, minorMat, cofactor, transpose, matMul, matVec, dot,
      coefficientsCalc, yPredCalc]
  · norm_num [fit, init, augmentIf, add_constant, hasNonzeroConstCol,
      constCol, getEntry, Mat.cols, Mat.rows, List.range_succ, inverse, det,
      detAux, minorMat, cofactor, transpose, matMul, matVec, dot,
      coefficientsCalc, yPredCalc, stdErrors, stdErrEntry, errorVariance,
      evCalc]

/-- C5 (amended): when the number of samples equals the number of
augmented columns but the Gram matrix is still invertible (for n below
the column count it is singular and fit already fails at inversion), fit
does not fail cleanly: it completes, returning fitted values and storing
a standard-error vector all of whose entries are non-finite (the integer
denominator n − p of the error variance is zero). -/
theorem fit_insufficient_dof (m : MyLinearModel) (X : Mat) (y : Vec) (I : Mat)
    (hI : inverse (matMul (transpose (augmentIf m.fit_intercept X))
      (augmentIf m.fit_intercept X)) = some I)
    (hnp : (augmentIf m.fit_intercept X).rows =
      (augmentIf m.fit_intercept X).cols) :
    (fit m X y).2 =
      Except.ok (yPredCalc I (augmentIf m.fit_intercept X) y) ∧
    (fit m X y).1.std_errors =
      some (List.replicate I.length (none : Option ℝ)) := by
  rw [fit_eq_ok hI]
  refine ⟨rfl, ?_⟩
  have hnp2 : List.length (augmentIf m.fit_intercept X) =
      (augmentIf m.fit_intercept X).cols := hnp
  simp [stdErrors, evCalc, errorVariance, hnp2, stdErrEntry, Mat.rows]

/-- C5 witness: a concrete square augmented design with invertible Gram
matrix. -/
theorem fit_insufficient_dof_witness :
    (fit (init true) [[0],[2]] [1,2]).2 =
      Except.ok (yPredCalc [[1,-1/2],[-1/2,1/2]]
        (augmentIf (init true).fit_intercept [[0],[2]]) [1,2]) ∧
    (fit (init true) [[0],[2]] [1,2]).1.std_errors =
      some (List.replicate (([[(1:ℚ),-1/2],[-1/2,1/2]] : Mat)).length
        (none : Option ℝ)) :=
  fit_insufficient_dof (init true) [[0],[2]] [1,2] [[1,-1/2],[-1/2,1/2]]
    (by norm_num [inverse, det, detAux, minorMat, cofactor, getEntry,
      Mat.rows, Mat.cols, augmentIf, init, add_constant,
      hasNonzeroConstCol, constCol, transpose, matMul, matVec, dot,
      List.range_succ])
    (by norm_num [augmentIf, init, add_constant, hasNonzeroConstCol,
      constCol, getEntry, Mat.rows, Mat.cols, List.range_succ])

/-- C10 counterexample: X = [[0],[0]] consists of a constant column (all
entries equal), yet with fit_intercept true a ones column is still added
(the statsmodels skip rule also requires the entries to be nonzero), the
augmented matrix has k+1 = 2 columns, and fit then fails with the
singular-matrix error instead of succeeding with a length-k coefficient
vector. -/
theorem fit_const_col_cx :
    augmentIf (init true).fit_intercept [[0],[0]] = [[1,0],[1,0]] ∧
    Mat.cols (augmentIf (init true).fit_intercept [[0],[0]]) = 2 ∧
    (fit (init true) [[0],[0]] [1,2]).2 =
      Except.error FitError.singularMatrix := by
  refine ⟨?_, ?_, ?_⟩
  · norm_num [augmentIf, init, add_constant, hasNonzeroConstCol, constCol,
      getEntry, Mat.cols, List.range_succ]
  · norm_num [augmentIf, init, add_constant, hasNonzeroConstCol, constCol,
      getEntry, Mat.cols, List.range_succ]
  · norm_num [fit, init, augmentIf, add_constant, hasNonzeroConstCol,
      constCol, getEntry, Mat.cols, Mat.rows, List.range_succ, inverse, det,
      detAux, minorMat, cofactor, transpose, matMul, matVec, dot]

/-- C10 (amended): when X contains a nonzero constant column and
fit_intercept is true, the augmentation used by fit and predict leaves X
unchanged (no second ones column, still k columns), and fit succeeds
with a coefficient vector of length k whenever the Gram matrix of X
itself is invertible. For an all-zero constant column the skip rule does
not fire and a ones column is still added. -/
theorem fit_const_col_skip (m : MyLinearModel) (X : Mat) (y : Vec) (I : Mat)
    (hm : m.fit_intercept = true)
    (hc : hasNonzeroConstCol X = true)
    (hI : inverse (matMul (transpose X) X) = some I) :
    augmentIf m.fit_intercept X = X ∧
    Mat.cols (augmentIf m.fit_intercept X) = Mat.cols X ∧
    (fit m X y).2 = Except.ok (yPredCalc I X y) ∧
    (fit m X y).1.coefficients = some (coefficientsCalc I X y) ∧
    (coefficientsCalc I X y).length = Mat.cols X := by
  have haug : augmentIf m.fit_intercept X = X := by
    simp [augmentIf, hm, add_constant, hc]
  have hI2 : inverse (matMul (transpose (augmentIf m.fit_intercept X))
      (augmentIf m.fit_intercept X)) = some I := by
    rw [haug]
    exact hI
  refine ⟨haug, by rw [haug], ?_, ?_, ?_⟩
  · rw [fit_eq_ok hI2, haug]
  · rw [fit_eq_ok hI2, haug]
  · rw [coefficientsCalc_length, inverse_rows hI, matMul_length,
      transpose_length]

/-- C10 witness: the constant column of twos is kept as-is and fit
succeeds with a single coefficient. -/
theorem fit_const_col_skip_witness :
    augmentIf (init true).fit_intercept [[2],[2],[2]] = [[2],[2],[2]] ∧
    Mat.cols (augmentIf (init true).fit_intercept [[2],[2],[2]]) =
      Mat.cols ([[2],[2],[2]] : Mat) ∧
    (fit (init true) [[2],[2],[2]] [1,2,3]).2 =
      Except.ok (yPredCalc [[(1:ℚ)/12]] [[2],[2],[2]] [1,2,3]) ∧
    (fit (init true) [[2],[2],[2]] [1,2,3]).1.coefficients =
      some (coefficientsCalc [[(1:ℚ)/12]] [[2],[2],[2]] [1,2,3]) ∧
    (coefficientsCalc [[(1:ℚ)/12]] [[2],[2],[2]] [1,2,3]).length =
      Mat.cols ([[2],[2],[2]] : Mat) :=
  fit_const_col_skip (init true) [[2],[2],[2]] [1,2,3] [[(1:ℚ)/12]] rfl
    (by norm_num [hasNonzeroConstCol, constCol, getEntry, Mat.cols,
      List.range_succ])
    (by norm_num [inverse, det, detAux, minorMat, cofactor, getEntry,
      Mat.rows, Mat.cols, transpose, matMul, matVec, dot, List.range_succ])

end LinReg
